import Mathlib

/-!
# Verification of the cfdm property-container and lazy-array core

Shallow embedding of the Python sources under `src/cfdm/`:

* `core/abstract/properties.py` — the abstract `Properties` container
  (`set_property`, `get_property`, `del_property`, `has_property`,
  `properties`, `copy`, `__init__`);
* `mixin/properties.py` — `Properties.equals` and `Properties.names`;
* `data/netcdfarray.py` — `NetCDFArray.__init__`, `__getitem__`, `close`,
  `open`;
* `structure/abstract/propertiesdatabounds.py` —
  `PropertiesDataBounds.__init__`.

Python dictionaries are modelled as association lists in insertion order
with unique keys (`Dict`).  Python object identity, which the deep-copy
and aliasing claims are about, is modelled with an explicit store
(`PState`): dict objects live at numeric addresses, and each `Properties`
object is the address of its `'properties'` component.  Mutating methods
are state transformers on that store.

The component-bag base class (`cfdm.core.abstract.Container`, with
`_get_component` / `_set_component`) is not part of the excerpted source;
following the spec's design note that the string-keyed bag is "an
implementation shortcut ... a systems-language implementation should use
ordinary named fields", the single component `'properties'` is modelled
as a named field (the address held by the object), and the components of
`NetCDFArray` and `PropertiesDataBounds` as named record fields.
-/

/-- Python values stored as property values.  A numeric value carries a
data-type tag (`dt`) so that "data-type mismatches are ignored" is a
statable property; the payload is an exact rational. -/
inductive PValue where
  | num (dt : String) (q : ℚ)
  | str (s : String)
  deriving DecidableEq, Repr

/-- Error kinds raised by the embedded Python code. -/
inductive PyErr where
  | attributeError
  | keyError
  | runtimeError
  | indexError
  | unboundLocalError
  deriving DecidableEq, Repr

/-- The spec's `PropertyNotFoundError`: the code raises it as
`AttributeError("... has no ... property")`
(core/abstract/properties.py line 188). -/
def PropertyNotFoundError : PyErr := .attributeError

/-- A Python dict in insertion order.  Keys are unique in any dict that
Python code can build; theorems assume `Nodup` on keys where needed. -/
abbrev Dict := List (String × PValue)

/-- `d[k]` as an option (first binding wins, as in any unique-key dict). -/
def dictLookup (d : Dict) (k : String) : Option PValue :=
  match d with
  | [] => none
  | (k', v) :: rest => if k' = k then some v else dictLookup rest k

/-- `d[k] = v`: replace the binding in place if `k` is present, else
append it (Python dict insertion-order semantics). -/
def dictInsert (d : Dict) (k : String) (v : PValue) : Dict :=
  match d with
  | [] => [(k, v)]
  | (k', v') :: rest =>
      if k' = k then (k, v) :: rest else (k', v') :: dictInsert rest k v

/-- `d.pop(k, None)`: the removed value (if any) and the remaining dict. -/
def dictPop (d : Dict) (k : String) : Option PValue × Dict :=
  match d with
  | [] => (none, [])
  | (k', v) :: rest =>
      if k' = k then (some v, rest)
      else
        let (r, d') := dictPop rest k
        (r, (k', v) :: d')

/-- `k in d`. -/
def dictMem (d : Dict) (k : String) : Bool :=
  (dictLookup d k).isSome

/-- The keys of a dict, in insertion order. -/
def dictKeys (d : Dict) : List String :=
  d.map Prod.fst

/-- The object store: `dicts` is the heap of dict objects (a dict
object's address is its index); `objs` is the heap of `Properties`
objects, each holding the address of its `'properties'` dict. -/
structure PState where
  dicts : List Dict
  objs : List Nat
  deriving Repr

namespace PState

/-- The dict object at address `a` (out-of-range reads are never reached
by well-formed programs; they default to the empty dict). -/
def dictAt (s : PState) (a : Nat) : Dict :=
  s.dicts.getD a []

/-- In-place mutation of the dict object at address `a`. -/
def setDictAt (s : PState) (a : Nat) (d : Dict) : PState :=
  { s with dicts := s.dicts.set a d }

/-- Allocate a fresh dict object; returns its address. -/
def allocDict (s : PState) (d : Dict) : Nat × PState :=
  (s.dicts.length, { s with dicts := s.dicts ++ [d] })

/-- The address of the `'properties'` component of object `o`
(`self._get_component('properties')`). -/
def objProps (s : PState) (o : Nat) : Nat :=
  s.objs.getD o 0

/-- `self._set_component('properties', d, copy=False)`: make object `o`
hold the dict object at address `a`. -/
def setObjProps (s : PState) (o : Nat) (a : Nat) : PState :=
  { s with objs := s.objs.set o a }

/-- Allocate a fresh `Properties` object holding dict address `a`. -/
def allocObj (s : PState) (a : Nat) : Nat × PState :=
  (s.objs.length, { s with objs := s.objs ++ [a] })

/-- The property mapping currently held by object `o`. -/
def propsOf (s : PState) (o : Nat) : Dict :=
  s.dictAt (s.objProps o)

end PState

namespace CoreProperties

/-- `set_property(prop, value, copy=True)`
(core/abstract/properties.py lines 292–338): `deepcopy` of a pure value
is the value itself, then `self._get_component('properties')[prop] = value`. -/
def set_property (s : PState) (o : Nat) (prop : String) (value : PValue) :
    PState :=
  let a := s.objProps o
  s.setDictAt a (dictInsert (s.dictAt a) prop value)

/-- `del_property(prop)` (lines 95–136):
`self._get_component('properties').pop(prop, None)`. -/
def del_property (s : PState) (o : Nat) (prop : String) :
    Option PValue × PState :=
  let a := s.objProps o
  let (r, d) := dictPop (s.dictAt a) prop
  (r, s.setDictAt a d)

/-- `get_property(prop, *default)` (lines 138–190): return the value,
else the default if given, else raise `AttributeError` (the spec's
`PropertyNotFoundError`). -/
def get_property (s : PState) (o : Nat) (prop : String)
    (default : Option PValue) : Except PyErr PValue :=
  match dictLookup (s.propsOf o) prop with
  | some v => .ok v
  | none =>
      match default with
      | some d => .ok d
      | none => .error PropertyNotFoundError

/-- `has_property(prop)` (lines 192–233). -/
def has_property (s : PState) (o : Nat) (prop : String) : Bool :=
  dictMem (s.propsOf o) prop

/-- `properties(properties=None, copy=True)` (lines 235–290):
`out = self._get_component('properties').copy()` allocates a fresh dict
object; a replacement mapping, whether `deepcopy`-ed (`copy=True`) or
`.copy()`-ed, is likewise a fresh dict object which becomes the new
`'properties'` component.  Returns the address of `out`. -/
def properties_ (s : PState) (o : Nat) (replacement : Option Dict) :
    Nat × PState :=
  let cur := s.propsOf o
  let (outRef, s1) := s.allocDict cur
  match replacement with
  | none => (outRef, s1)
  | some p =>
      let (pRef, s2) := s1.allocDict p
      (outRef, s2.setObjProps o pRef)

/-- A `source` argument to `Properties.__init__`: either another
`Properties` object (which has the `properties()` method) or an object
lacking that method, whose probe raises `AttributeError`. -/
inductive PSource where
  | obj (o : Nat)
  | noAccessor

/-- `Properties.__init__(properties=None, source=None, copy=True)`
(lines 15–56): allocate the object with an empty `'properties'` dict;
when `source` is given, `try: properties = source.properties() except
AttributeError: properties = None`; then `if properties:
self.properties(properties, copy=copy)` (empty dicts are falsy and
skipped).  Returns the new object's address. -/
def init (s : PState) (properties? : Option Dict) (source? : Option PSource) :
    Nat × PState :=
  let (e, s1) := s.allocDict []
  let (o, s2) := s1.allocObj e
  let (props?, s3) : Option Dict × PState :=
    match source? with
    | none => (properties?, s2)
    | some .noAccessor => (none, s2)
    | some (.obj src) =>
        -- source.properties() returns a fresh copy of source's dict
        let (r, s') := properties_ s2 src none
        (some (s'.dictAt r), s')
  match props? with
  | some p =>
      if p = [] then (o, s3)
      else
        let (_, s4) := properties_ s3 o (some p)
        (o, s4)
  | none => (o, s3)

/-- `copy()` (lines 77–93): `return type(self)(source=self, copy=True)`. -/
def copy (s : PState) (o : Nat) : Nat × PState :=
  init s none (some (.obj o))

end CoreProperties

/-! ## Mixin property container: `equals` and `names`
(src/cfdm/mixin/properties.py) -/

/-- Modelled from the spec: the default tolerances come from the
`cfdm.ATOL` function, whose definition is not in the excerpted source;
the spec describes them only as "positive, typically very small numbers"
under which `1.0` and `1.0 + 1e-10` compare equal. -/
def ATOL_default : ℚ := 1 / 10 ^ 8

/-- Modelled from the spec: the default relative tolerance from the
`cfdm.RTOL` function, not in the excerpted source (see `ATOL_default`). -/
def RTOL_default : ℚ := 1 / 10 ^ 5

/-- Modelled from the spec: `Container._equals` (the value-level
comparison used by `Properties.equals`) is not in the excerpted source.
Per the spec it is "element-wise numeric closeness (`|x-y| <= atol +
rtol*|y|`) or exact equality for non-numeric values", with data-type
mismatches significant unless `ignore_data_type` is set. -/
def value_equals (x y : PValue) (rtol atol : ℚ)
    (ignore_data_type : Bool) : Bool :=
  match x, y with
  | .num dx qx, .num dy qy =>
      (ignore_data_type || dx == dy) && decide (|qx - qy| ≤ atol + rtol * |qy|)
  | .str a, .str b => a == b
  | _, _ => false

/-- `d.pop(k, None)` for each listed key in turn (mixin/properties.py
lines 162–166 pop every ignored name from a mapping). -/
def dictPopAll (d : Dict) (ks : List String) : Dict :=
  ks.foldl (fun d k => (dictPop d k).2) d

/-- `set(self_properties) == set(other_properties)` on unique-key dicts. -/
def sameKeySet (d1 d2 : Dict) : Bool :=
  (dictKeys d1).all (fun k => dictMem d2 k) &&
    (dictKeys d2).all (fun k => dictMem d1 k)

namespace MixinProperties

/-- `Properties.equals` (mixin/properties.py lines 62–191), at the level
of the two property mappings.  `_equals_preprocess` (from the missing
`mixin.Container`) returns the other operand when both are property
containers of the same kind, so for the claims below it is the identity
and the comparison proceeds to the property checks: grow the ignored
names by `_FillValue`/`missing_value` when `ignore_fill_value` (line
156–157), pop them from both sides (162–166), compare key sets (168–174),
then compare each shared key's values with `ignore_data_type` hard-coded
to `True` (176–188). -/
def equals (self other : Dict) (rtol atol : ℚ) (ignore_fill_value : Bool)
    (ignore_properties : List String) : Bool :=
  let ig :=
    if ignore_fill_value then
      ignore_properties ++ ["_FillValue", "missing_value"]
    else ignore_properties
  let self_properties := dictPopAll self ig
  let other_properties := dictPopAll other ig
  if sameKeySet self_properties other_properties then
    self_properties.all fun kv =>
      match dictLookup other_properties kv.1 with
      | some y => value_equals kv.2 y rtol atol true
      | none => false
  else false

end MixinProperties

/-- Codepoint-lexicographic strict order on character lists (the order
Python's `sorted` uses on the string keys). -/
def strLtL : List Char → List Char → Bool
  | [], [] => false
  | [], _ :: _ => true
  | _ :: _, [] => false
  | a :: as, b :: bs =>
      if a.toNat < b.toNat then true
      else if b.toNat < a.toNat then false
      else strLtL as bs

/-- `a ≤ b` on strings, codepoint-lexicographically. -/
def strLe (a b : String) : Bool :=
  !(strLtL b.data a.data)

/-- Insert a `(key, value)` pair into a list sorted by key. -/
def insertByKey (p : String × PValue) :
    List (String × PValue) → List (String × PValue)
  | [] => [p]
  | q :: rest =>
      if strLe p.1 q.1 then p :: q :: rest else q :: insertByKey p rest

/-- `sorted(d.items())` on a unique-key dict: insertion sort by key. -/
def sortByKey (d : Dict) : Dict :=
  d.foldr insertByKey []

/-- `str(value)` as used by `'{0}={1}'.format(prop, value)` in `names`.
CF property values relevant to naming are strings, on which Python's
`str` is the identity; numeric values are rendered through `toString`. -/
def pvalueStr : PValue → String
  | .str s => s
  | .num _ q => toString q

namespace MixinProperties

/-- `Properties.names(extra=None)` (mixin/properties.py lines 193–286):
take a copy of the property mapping, pop `cf_role` and `long_name` from
it (lines 260–261) — but not `standard_name` — format the remainder
sorted as `'{prop}={value}'` (263–264), prepend `extra` (266–267), then
push on the front, in order: `ncvar%<name>` when the netCDF variable
name is set (269–271, via `nc_get_variable` from the missing NetCDF
mixin, modelled as the `nc_variable` argument), `long_name=<value>`,
`cf_role=<value>`, and the bare `standard_name` value (273–284). -/
def names (props : Dict) (nc_variable : Option String)
    (extra : List String) : List String :=
  let properties := (dictPop (dictPop props "cf_role").2 "long_name").2
  let out := (sortByKey properties).map fun kv => kv.1 ++ "=" ++ pvalueStr kv.2
  let out := extra ++ out
  let out :=
    match nc_variable with
    | some n => ("ncvar%" ++ n) :: out
    | none => out
  let out :=
    match dictLookup props "long_name" with
    | some v => ("long_name=" ++ pvalueStr v) :: out
    | none => out
  let out :=
    match dictLookup props "cf_role" with
    | some v => ("cf_role=" ++ pvalueStr v) :: out
    | none => out
  match dictLookup props "standard_name" with
  | some v => pvalueStr v :: out
  | none => out

end MixinProperties

/-! ## Ragged-by-count decompression

Modelled from the spec: the contiguous-ragged compressed array backing
itself is not in the excerpted source (only the `Count` variable holding
the count array, src/cfdm/count.py, is).  Spec section 4.4: physical
rows are laid out in feature order with no gaps; feature `i` receives
the rows `[offset[i], offset[i]+count[i])` at the front of its logical
row, padded to the fixed width `max(count)` with fill/mask. -/

/-- The fixed width of every logical row: `max(count)` (0 when there are
no features). -/
def raggedMaxCount (counts : List Nat) : Nat :=
  counts.foldr max 0

/-- One logical row of width `m`: the feature's `c` physical rows at the
front, the remainder padded with mask (`none`). -/
def raggedRowOf {α : Type} (m c : Nat) (rem : List α) : List (Option α) :=
  (rem.take c).map some ++ List.replicate (m - c) none

/-- Modelled from the spec: walk the count array consuming physical rows
in feature order ("physical rows are laid out in feature order with no
gaps"), emitting one logical row of fixed width `m` per feature. -/
def raggedGo {α : Type} (m : Nat) : List Nat → List α → List (List (Option α))
  | [], _ => []
  | c :: cs, rem => raggedRowOf m c rem :: raggedGo m cs (rem.drop c)

/-- Modelled from the spec: full decompression of a contiguous ragged
array — every logical row has the fixed width `max(count)`. -/
def raggedUncompress {α : Type} (counts : List Nat) (phys : List α) :
    List (List (Option α)) :=
  raggedGo (raggedMaxCount counts) counts phys

/-- The physical row range of logical feature `i`: the prefix sum
`offset[i]` of the count array (spec section 4.4, step 1). -/
def raggedOffset (counts : List Nat) (i : Nat) : Nat :=
  (counts.take i).sum

/-! ## On-disk array backing: `NetCDFArray`
(src/cfdm/data/netcdfarray.py) -/

/-- A variable of the storage collaborator: a name, the UNIDATA varid,
and the read behaviour `variable.set_auto_mask(mask); variable[indices]`
for the fetched index expression (abstracted over the element payload
`α`; the mask flag is the argument). -/
structure NCVar (α : Type) where
  name : String
  varid : Int
  read : Bool → Except PyErr α

/-- The group tree of an open dataset: variables plus named subgroups. -/
inductive GTree (α : Type) where
  | node (vars : List (NCVar α)) (subs : List (String × GTree α))

/-- The variables of a group. -/
def GTree.vars {α : Type} : GTree α → List (NCVar α)
  | .node vs _ => vs

/-- `netcdf.groups[g]`: look up a subgroup by name. -/
def GTree.sub? {α : Type} : GTree α → String → Option (GTree α)
  | .node _ subs, g =>
      match subs.find? (fun p => p.1 = g) with
      | some p => some p.2
      | none => none

/-- Traverse the group structure (netcdfarray.py lines 197–203): the
loop over `group[:-1]` followed by the final lookup descends through
every name in order; a missing group name raises `KeyError`. -/
def descendGroups {α : Type} :
    GTree α → List String → Except PyErr (GTree α)
  | t, [] => .ok t
  | t, g :: gs =>
      match t.sub? g with
      | some t' => descendGroups t' gs
      | none => .error .keyError

/-- The storage collaborator as seen by one `__getitem__` call:
the outcome of `netCDF4.Dataset(filename, 'r')` and the
character/string post-processing of lines 225–267, abstracted as an
environment-supplied transformation of the raw read result (the claims
verified here concern the control flow around it, not its content). -/
structure NCEnv (α : Type) where
  openResult : Except PyErr (GTree α)
  postProcess : α → Except PyErr α

/-- The components of a `NetCDFArray` object as set by `__init__`
(netcdfarray.py lines 152–171): `shape`, `filename`, `ncvar`, `varid`
are set only when non-`None`; `group`, `dtype`, `mask` always; `close`
is always `True` ("close the netCDF file after data array access"). -/
structure NetCDFArrayObj where
  filename : Option String
  ncvar : Option String
  varid : Option Int
  group : Option (List String)
  shape : Option (List Nat)
  dtype : Option String
  mask : Bool
  closeAfter : Bool

/-- Open-handle accounting for the scoped-acquisition claim: how many
resource handles the call currently holds open. -/
structure NCState where
  openCount : Nat
  deriving DecidableEq, Repr

/-- `close(netcdf)` (netcdfarray.py lines 430–446): close the dataset
only `if self._get_component("close")`. -/
def NetCDFArrayObj.closeDataset (a : NetCDFArrayObj) (st : NCState) :
    NCState :=
  if a.closeAfter then { openCount := st.openCount - 1 } else st

/-- The variable-resolution and read step (netcdfarray.py lines
205–221): with `ncvar` set, `netcdf.variables[ncvar]` (a missing name
raises `KeyError`) and read it; otherwise scan `netcdf.variables` for
the first variable whose `_varid` equals `varid` and read it — when no
variable matches, the loop falls through and the local `array` is never
assigned (`.ok none`). -/
def resolveRead {α : Type} (a : NetCDFArrayObj) (grp : GTree α) :
    Except PyErr (Option α) :=
  match a.ncvar with
  | some name =>
      match grp.vars.find? (fun v => v.name = name) with
      | some v => (v.read a.mask).map some
      | none => .error .keyError
  | none =>
      match grp.vars.find? (fun v => a.varid = some v.varid) with
      | some v => (v.read a.mask).map some
      | none => .ok none

/-- `__getitem__(indices)` (netcdfarray.py lines 173–268): open the
dataset (line 194; a failure re-raises `RuntimeError` without having
acquired a handle), descend the group structure (197–203), resolve the
variable and read it (205–221) — any failure up to here propagates with
the handle still open — then `self.close(dataset)` (line 223), and only
after closing touch the local `array`: if it was never assigned the
access at line 225 raises `UnboundLocalError`, otherwise the
character/string post-processing of lines 225–267 runs and its outcome
is returned. -/
def NetCDFArrayObj.getitem {α : Type} (a : NetCDFArrayObj)
    (env : NCEnv α) (st : NCState) : Except PyErr α × NCState :=
  match env.openResult with
  | .error _ => (.error .runtimeError, st)
  | .ok root =>
      let st1 : NCState := { openCount := st.openCount + 1 }
      match descendGroups root (a.group.getD []) with
      | .error e => (.error e, st1)
      | .ok grp =>
          match resolveRead a grp with
          | .error e => (.error e, st1)
          | .ok array? =>
              let st2 := a.closeDataset st1
              match array? with
              | none => (.error .unboundLocalError, st2)
              | some array => (env.postProcess array, st2)

/-! ## Construction from a `source` object (duck-typed probing) -/

/-- The `try: v = <accessor> except AttributeError: v = <default absent>`
probe pattern: an accessor that raises `AttributeError` (because the
source lacks it) yields `none`; any other error propagates. -/
def probeAttr {α : Type} (x : Except PyErr α) : Except PyErr (Option α) :=
  match x with
  | .ok a => .ok (some a)
  | .error .attributeError => .ok none
  | .error e => .error e

/-- A `source` argument to `NetCDFArray.__init__`, described by the
behaviour of each probed call.  `shape` … `dtype` are
`source._get_component(name, None)` (returning `none` when the component
is merely unset), `mask` is `source._get_component("mask", True)`; a
source lacking `_get_component` altogether raises `AttributeError` from
every probe. -/
structure NASource where
  shape : Except PyErr (Option (List Nat))
  filename : Except PyErr (Option String)
  ncvar : Except PyErr (Option String)
  varid : Except PyErr (Option Int)
  group : Except PyErr (Option (List String))
  dtype : Except PyErr (Option String)
  mask : Except PyErr Bool

/-- `NetCDFArray.__init__` (netcdfarray.py lines 15–171): when `source`
is given, each parameter is overridden by the corresponding
`try/except AttributeError` probe (lines 116–150, defaulting to `None`,
and to `True` for `mask`); then `shape`/`filename`/`ncvar`/`varid` are
stored only when non-`None` (152–162), `group`/`dtype`/`mask` are always
stored (164–166), and the close-after-access component is set to `True`
(171). -/
def NetCDFArrayInit (shape : Option (List Nat)) (filename : Option String)
    (ncvar : Option String) (varid : Option Int)
    (group : Option (List String)) (dtype : Option String) (mask : Bool)
    (source? : Option NASource) : Except PyErr NetCDFArrayObj := do
  let (shape, filename, ncvar, varid, group, dtype, mask) ←
    match source? with
    | none => pure (shape, filename, ncvar, varid, group, dtype, mask)
    | some src => do
        let shape ← probeAttr src.shape
        let filename ← probeAttr src.filename
        let ncvar ← probeAttr src.ncvar
        let varid ← probeAttr src.varid
        let group ← probeAttr src.group
        let dtype ← probeAttr src.dtype
        let mask ← probeAttr src.mask
        pure (shape.getD none, filename.getD none, ncvar.getD none,
          varid.getD none, group.getD none, dtype.getD none,
          mask.getD true)
  pure
    { filename := filename
      ncvar := ncvar
      varid := varid
      group := group
      shape := shape
      dtype := dtype
      mask := mask
      closeAfter := true }

/-- A `source` argument to `PropertiesDataBounds.__init__`, described by
the behaviour of each probed accessor: `source.properties()` and
`source.get_data(None)` (probed by the `PropertiesData` superclass
constructor, which is not in the excerpted source — modelled from the
spec's uniform construct-from-source convention), and
`source.get_bounds(None)`, `source.get_cell_type(None)`,
`source.get_ancillaries()` (propertiesdatabounds.py lines 64–79).
Data containers and bounds are opaque tokens (`Nat`). -/
structure PDBSource where
  properties : Except PyErr Dict
  data : Except PyErr (Option Nat)
  bounds : Except PyErr (Option Nat)
  cell_type : Except PyErr (Option String)
  ancillaries : Except PyErr (List (String × Nat))

/-- The constituents of a `PropertiesDataBounds` object after
construction. -/
structure PDBObj where
  props : Dict
  data : Option Nat
  bounds : Option Nat
  cell_type : Option String
  ancillaries : List (String × Nat)
  deriving DecidableEq, Repr

/-- `PropertiesDataBounds.__init__` (propertiesdatabounds.py lines
16–104): the superclass pulls `properties` and `data` from the source
when it has those accessors (an absent accessor yields no properties /
no data); then `bounds`, `cell_type` and `ancillaries` are probed with
`try/except AttributeError` (lines 64–79), the bounds are copied and set
only when present (82–87), the cell type set when present (89–90), and a
`None` ancillaries mapping becomes empty (92–103).  Deep copies of the
opaque tokens are the tokens themselves. -/
def PDBInit (properties : Dict) (data : Option Nat) (bounds : Option Nat)
    (cell_type : Option String) (ancillaries : Option (List (String × Nat)))
    (source? : Option PDBSource) : Except PyErr PDBObj := do
  let (properties, data, bounds, cell_type, ancillaries) ←
    match source? with
    | none => pure (properties, data, bounds, cell_type, ancillaries)
    | some src => do
        let props ← probeAttr src.properties
        let data ← probeAttr src.data
        let bounds ← probeAttr src.bounds
        let cell_type ← probeAttr src.cell_type
        let ancillaries ← probeAttr src.ancillaries
        pure (props.getD [], data.getD none, bounds.getD none,
          cell_type.getD none, ancillaries)
  pure
    { props := properties
      data := data
      bounds := bounds
      cell_type := cell_type
      ancillaries := ancillaries.getD [] }

/-! ## Helper lemmas -/

theorem dictPop_fst (d : Dict) (k : String) :
    (dictPop d k).1 = dictLookup d k := by
  induction d with
  | nil => rfl
  | cons kv rest ih =>
      obtain ⟨k', v⟩ := kv
      by_cases h : k' = k <;> simp [dictPop, dictLookup, h, ih]

theorem dictLookup_insert_self (d : Dict) (k : String) (v : PValue) :
    dictLookup (dictInsert d k v) k = some v := by
  induction d with
  | nil => simp [dictInsert, dictLookup]
  | cons kv rest ih =>
      obtain ⟨k', v'⟩ := kv
      by_cases h : k' = k <;> simp [dictInsert, dictLookup, h, ih]

theorem dictPop_insert_of_not_mem (d : Dict) (k : String) (v : PValue)
    (h : dictLookup d k = none) :
    dictPop (dictInsert d k v) k = (some v, d) := by
  induction d with
  | nil => simp [dictInsert, dictPop]
  | cons kv rest ih =>
      obtain ⟨k', v'⟩ := kv
      by_cases hk : k' = k
      · simp [dictLookup, hk] at h
      · simp [dictLookup, hk] at h
        simp [dictInsert, dictPop, hk, ih h]

theorem listGetD_append_left {α : Type} (l l' : List α) (n : Nat) (dflt : α)
    (h : n < l.length) : (l ++ l').getD n dflt = l.getD n dflt := by
  simp [List.getD_eq_getElem?_getD, List.getElem?_append_left h]

theorem listGetD_concat_self {α : Type} (l : List α) (a : α) (dflt : α) :
    (l ++ [a]).getD l.length dflt = a := by
  simp [List.getD_eq_getElem?_getD, List.getElem?_concat_length]

theorem listGetD_set_self {α : Type} (l : List α) (n : Nat) (a : α) (dflt : α)
    (h : n < l.length) : (l.set n a).getD n dflt = a := by
  simp [List.getD_eq_getElem?_getD, List.getElem?_set_self h]

theorem listGetD_set_ne {α : Type} (l : List α) (n m : Nat) (a : α) (dflt : α)
    (h : n ≠ m) : (l.set n a).getD m dflt = l.getD m dflt := by
  simp [List.getD_eq_getElem?_getD, List.getElem?_set_ne h]

namespace PState


theorem dictAt_setDictAt_self (s : PState) (a : Nat) (d : Dict)
    (h : a < s.dicts.length) : (s.setDictAt a d).dictAt a = d := by
  simp [setDictAt, dictAt, List.getD_eq_getElem?_getD,
    List.getElem?_set_self h]

theorem dictAt_setDictAt_ne (s : PState) (a b : Nat) (d : Dict)
    (h : a ≠ b) : (s.setDictAt a d).dictAt b = s.dictAt b := by
  simp [setDictAt, dictAt, List.getD_eq_getElem?_getD,
    List.getElem?_set_ne h]

theorem objProps_setDictAt (s : PState) (a : Nat) (d : Dict) (o : Nat) :
    (s.setDictAt a d).objProps o = s.objProps o := rfl

theorem length_setDictAt (s : PState) (a : Nat) (d : Dict) :
    (s.setDictAt a d).dicts.length = s.dicts.length := by
  simp [setDictAt]

end PState

/-- C3: for a property container and a name `p` not currently set, after
`set_property(p, v)` the property reads back as `v` and is present;
`del_property(p)` then returns `v`, after which the property is absent,
`get_property(p, d)` returns the supplied default `d`, `del_property(p)`
returns `None`, and `get_property(p)` with no default fails with the
property-not-found error (raised by the code as `AttributeError`). -/
theorem C3_set_get_del_roundtrip (s : PState) (o : Nat) (p : String)
    (v d : PValue)
    (hwf : s.objProps o < s.dicts.length)
    (hnot : CoreProperties.has_property s o p = false) :
    CoreProperties.get_property (CoreProperties.set_property s o p v) o p
        none = .ok v ∧
    CoreProperties.has_property (CoreProperties.set_property s o p v) o p
        = true ∧
    (CoreProperties.del_property (CoreProperties.set_property s o p v) o
        p).1 = some v ∧
    CoreProperties.has_property
      (CoreProperties.del_property (CoreProperties.set_property s o p v) o
        p).2 o p = false ∧
    CoreProperties.get_property
      (CoreProperties.del_property (CoreProperties.set_property s o p v) o
        p).2 o p (some d) = .ok d ∧
    (CoreProperties.del_property
      (CoreProperties.del_property (CoreProperties.set_property s o p v) o
        p).2 o p).1 = none ∧
    CoreProperties.get_property
      (CoreProperties.del_property (CoreProperties.set_property s o p v) o
        p).2 o p none = .error PropertyNotFoundError := by
  have hl : dictLookup (s.propsOf o) p = none := by
    unfold CoreProperties.has_property dictMem at hnot
    rcases h : dictLookup (s.propsOf o) p with _ | w
    · rfl
    · rw [h] at hnot; simp at hnot
  have e1 : CoreProperties.set_property s o p v
      = s.setDictAt (s.objProps o)
          (dictInsert (s.dictAt (s.objProps o)) p v) := rfl
  set s1 := CoreProperties.set_property s o p v with hs1
  have h1objs : s1.objProps o = s.objProps o := by rw [e1]; rfl
  have h1len : s1.dicts.length = s.dicts.length := by
    rw [e1]; exact PState.length_setDictAt _ _ _
  have h1props : s1.propsOf o = dictInsert (s.propsOf o) p v := by
    show s1.dictAt (s1.objProps o) = _
    rw [h1objs, e1]
    exact PState.dictAt_setDictAt_self _ _ _ hwf
  have e2 : CoreProperties.del_property s1 o p
      = ((dictPop (s1.dictAt (s1.objProps o)) p).1,
         s1.setDictAt (s1.objProps o)
           (dictPop (s1.dictAt (s1.objProps o)) p).2) := rfl
  have hpop : dictPop (s1.dictAt (s1.objProps o)) p
      = (some v, s.propsOf o) := by
    show dictPop (s1.propsOf o) p = _
    rw [h1props]
    exact dictPop_insert_of_not_mem _ _ _ hl
  have hA : s1.objProps o < s1.dicts.length := by
    rw [h1objs, h1len]; exact hwf
  set s2 := (CoreProperties.del_property s1 o p).2 with hs2
  have h2props : s2.propsOf o = s.propsOf o := by
    rw [hs2, e2]
    show ((s1.setDictAt (s1.objProps o)
        (dictPop (s1.dictAt (s1.objProps o)) p).2)).propsOf o = _
    show ((s1.setDictAt (s1.objProps o)
        (dictPop (s1.dictAt (s1.objProps o)) p).2)).dictAt
        ((s1.setDictAt (s1.objProps o)
          (dictPop (s1.dictAt (s1.objProps o)) p).2).objProps o) = _
    rw [PState.objProps_setDictAt, PState.dictAt_setDictAt_self _ _ _ hA,
      hpop]
  refine ⟨?_, ?_, ?_, ?_, ?_, ?_, ?_⟩
  · unfold CoreProperties.get_property
    rw [h1props, dictLookup_insert_self]
  · unfold CoreProperties.has_property dictMem
    rw [h1props, dictLookup_insert_self]
    rfl
  · rw [e2, hpop]
  · unfold CoreProperties.has_property dictMem
    rw [h2props, hl]
    rfl
  · unfold CoreProperties.get_property
    rw [h2props, hl]
  · have e3 : (CoreProperties.del_property s2 o p).1
        = dictLookup (s2.propsOf o) p := dictPop_fst _ _
    rw [e3, h2props]
    exact hl
  · unfold CoreProperties.get_property
    rw [h2props, hl]

/-- Witness for C3 at a concrete store: one container (object 0) with an
empty property mapping, property name `x`, value `5`. -/
theorem C3_set_get_del_roundtrip_witness :
    PState.objProps ⟨[[]], [0]⟩ 0 < (PState.dicts ⟨[[]], [0]⟩).length ∧
    CoreProperties.has_property ⟨[[]], [0]⟩ 0 "x" = false ∧
    CoreProperties.get_property
      (CoreProperties.set_property ⟨[[]], [0]⟩ 0 "x" (.num "int" 5)) 0 "x"
      none = .ok (.num "int" 5) :=
  ⟨by decide, by decide,
    (C3_set_get_del_roundtrip ⟨[[]], [0]⟩ 0 "x" (.num "int" 5) (.str "d")
      (by decide) (by decide)).1⟩

/-- C10: `properties()` with no replacement returns a fresh copy of the
property mapping (mutating the returned dict object to any content `d'`
leaves the container's mapping unchanged); with a replacement mapping
`p`, the returned dict is the mapping as it was before the replacement
took effect, and afterwards the container holds `p`. -/
theorem C10_properties_copy_semantics (s : PState) (o : Nat) (d' p : Dict)
    (ho : o < s.objs.length) (hwf : s.objProps o < s.dicts.length) :
    ((CoreProperties.properties_ s o none).2).dictAt
        (CoreProperties.properties_ s o none).1 = s.propsOf o ∧
    (((CoreProperties.properties_ s o none).2).setDictAt
        (CoreProperties.properties_ s o none).1 d').propsOf o
      = s.propsOf o ∧
    ((CoreProperties.properties_ s o (some p)).2).dictAt
        (CoreProperties.properties_ s o (some p)).1 = s.propsOf o ∧
    ((CoreProperties.properties_ s o (some p)).2).propsOf o = p := by
  have e1 : CoreProperties.properties_ s o none
      = (s.dicts.length, ⟨s.dicts ++ [s.propsOf o], s.objs⟩) := rfl
  have e2 : CoreProperties.properties_ s o (some p)
      = (s.dicts.length,
          ⟨s.dicts ++ [s.propsOf o] ++ [p],
           s.objs.set o (s.dicts ++ [s.propsOf o]).length⟩) := rfl
  have hne : s.dicts.length ≠ s.objProps o := (Nat.ne_of_lt hwf).symm
  refine ⟨?_, ?_, ?_, ?_⟩
  · rw [e1]
    exact listGetD_concat_self _ _ _
  · rw [e1]
    show (PState.setDictAt ⟨s.dicts ++ [s.propsOf o], s.objs⟩
        s.dicts.length d').dictAt
        ((PState.setDictAt ⟨s.dicts ++ [s.propsOf o], s.objs⟩
          s.dicts.length d').objProps o) = s.propsOf o
    rw [PState.objProps_setDictAt]
    have ho2 : PState.objProps ⟨s.dicts ++ [s.propsOf o], s.objs⟩ o
        = s.objProps o := rfl
    rw [ho2, PState.dictAt_setDictAt_ne _ _ _ _ hne]
    show (s.dicts ++ [s.propsOf o]).getD (s.objProps o) [] = s.propsOf o
    rw [listGetD_append_left _ _ _ _ hwf]
    rfl
  · rw [e2]
    show ((s.dicts ++ [s.propsOf o]) ++ [p]).getD s.dicts.length []
        = s.propsOf o
    rw [listGetD_append_left _ _ _ _ (by simp)]
    exact listGetD_concat_self _ _ _
  · rw [e2]
    show PState.dictAt _ (PState.objProps
        ⟨s.dicts ++ [s.propsOf o] ++ [p],
         s.objs.set o (s.dicts ++ [s.propsOf o]).length⟩ o) = p
    have hop : PState.objProps
        ⟨s.dicts ++ [s.propsOf o] ++ [p],
         s.objs.set o (s.dicts ++ [s.propsOf o]).length⟩ o
        = (s.dicts ++ [s.propsOf o]).length :=
      listGetD_set_self _ _ _ _ ho
    rw [hop]
    exact listGetD_concat_self _ _ _

/-- Witness for C10 at a concrete store: a container holding
`{'a': 1}`, mutated copy `{'b': 2}`, replacement `{'c': 3}`. -/
theorem C10_properties_copy_semantics_witness :
    (0 : Nat) < 1 ∧
    PState.objProps ⟨[[("a", .num "int" 1)]], [0]⟩ 0
      < (PState.dicts ⟨[[("a", .num "int" 1)]], [0]⟩).length ∧
    ((CoreProperties.properties_ ⟨[[("a", .num "int" 1)]], [0]⟩ 0
        none).2).dictAt
      (CoreProperties.properties_ ⟨[[("a", .num "int" 1)]], [0]⟩ 0
        none).1 = [("a", .num "int" 1)] :=
  ⟨by decide, by decide,
    (C10_properties_copy_semantics ⟨[[("a", .num "int" 1)]], [0]⟩ 0
      [("b", .num "int" 2)] [("c", .num "int" 3)] (by decide)
      (by decide)).1⟩

theorem properties_none_eq (S : PState) (O : Nat) :
    CoreProperties.properties_ S O none
      = (S.dicts.length, ⟨S.dicts ++ [S.propsOf O], S.objs⟩) := rfl

theorem properties_some_eq (S : PState) (O : Nat) (P : Dict) :
    CoreProperties.properties_ S O (some P)
      = (S.dicts.length,
          ⟨S.dicts ++ [S.propsOf O] ++ [P],
           S.objs.set O (S.dicts ++ [S.propsOf O]).length⟩) := rfl

/-- Specification of `Properties.__init__` with another container as
`source`: the new container receives the source's mapping, stored in a
dict object at a fresh address (at or beyond the old heap), while the
source object and every pre-existing dict object are untouched. -/
theorem init_obj_spec (s : PState) (o : Nat)
    (ho : o < s.objs.length) (hwf : s.objProps o < s.dicts.length) :
    ((CoreProperties.init s none (some (.obj o))).2).propsOf
        (CoreProperties.init s none (some (.obj o))).1 = s.propsOf o ∧
    s.dicts.length ≤ ((CoreProperties.init s none (some (.obj o))).2).objProps
        (CoreProperties.init s none (some (.obj o))).1 ∧
    ((CoreProperties.init s none (some (.obj o))).2).objProps
        (CoreProperties.init s none (some (.obj o))).1
      < ((CoreProperties.init s none (some (.obj o))).2).dicts.length ∧
    ((CoreProperties.init s none (some (.obj o))).2).objProps o
      = s.objProps o ∧
    (∀ b, b < s.dicts.length →
      ((CoreProperties.init s none (some (.obj o))).2).dictAt b
        = s.dictAt b) := by
  have e0 : CoreProperties.init s none (some (.obj o)) =
      (let s2 : PState := ⟨s.dicts ++ [[]], s.objs ++ [s.dicts.length]⟩
       let s3 : PState := ⟨s2.dicts ++ [s2.propsOf o], s2.objs⟩
       let pd := s3.dictAt s2.dicts.length
       if pd = [] then (s.objs.length, s3)
       else (s.objs.length,
         (CoreProperties.properties_ s3 s.objs.length (some pd)).2)) := rfl
  have hs2p : PState.propsOf ⟨s.dicts ++ [[]], s.objs ++ [s.dicts.length]⟩ o
      = s.propsOf o := by
    show PState.dictAt _ (PState.objProps _ o) = _
    have h1 : PState.objProps
        ⟨s.dicts ++ [[]], s.objs ++ [s.dicts.length]⟩ o = s.objProps o :=
      listGetD_append_left _ _ _ _ ho
    rw [h1]
    show (s.dicts ++ [[]]).getD (s.objProps o) [] = _
    rw [listGetD_append_left _ _ _ _ hwf]
    rfl
  rw [e0]
  simp only [hs2p]
  have hpd : PState.dictAt
      ⟨(s.dicts ++ [[]]) ++ [s.propsOf o], s.objs ++ [s.dicts.length]⟩
      ((s.dicts ++ [[]]).length) = s.propsOf o :=
    listGetD_concat_self _ _ _
  rw [hpd]
  have hobjc : (s.objs ++ [s.dicts.length]).getD s.objs.length 0
      = s.dicts.length := listGetD_concat_self _ _ _
  have hobjo : (s.objs ++ [s.dicts.length]).getD o 0 = s.objProps o :=
    listGetD_append_left _ _ _ _ ho
  by_cases hD : s.propsOf o = []
  · rw [if_pos hD]
    refine ⟨?_, ?_, ?_, ?_, ?_⟩
    · show PState.dictAt _ ((s.objs ++ [s.dicts.length]).getD s.objs.length 0)
          = s.propsOf o
      rw [hobjc]
      show ((s.dicts ++ [[]]) ++ [s.propsOf o]).getD s.dicts.length []
          = s.propsOf o
      rw [listGetD_append_left _ _ _ _ (by simp)]
      rw [listGetD_concat_self, hD]
    · show s.dicts.length ≤ (s.objs ++ [s.dicts.length]).getD s.objs.length 0
      rw [hobjc]
    · show (s.objs ++ [s.dicts.length]).getD s.objs.length 0
          < ((s.dicts ++ [[]]) ++ [s.propsOf o]).length
      rw [hobjc]
      simp
    · exact hobjo
    · intro b hb
      show ((s.dicts ++ [[]]) ++ [s.propsOf o]).getD b [] = s.dictAt b
      rw [listGetD_append_left _ _ _ _ (by simp; omega),
        listGetD_append_left _ _ _ _ hb]
      rfl
  · rw [if_neg hD, properties_some_eq]
    have h3pc : PState.propsOf
        ⟨(s.dicts ++ [[]]) ++ [s.propsOf o], s.objs ++ [s.dicts.length]⟩
        s.objs.length = [] := by
      show PState.dictAt _ ((s.objs ++ [s.dicts.length]).getD s.objs.length 0)
          = []
      rw [hobjc]
      show ((s.dicts ++ [[]]) ++ [s.propsOf o]).getD s.dicts.length [] = []
      rw [listGetD_append_left _ _ _ _ (by simp)]
      exact listGetD_concat_self _ _ _
    simp only [h3pc]
    have hco : o ≠ s.objs.length := Nat.ne_of_lt ho
    refine ⟨?_, ?_, ?_, ?_, ?_⟩
    · show PState.dictAt _
          (((s.objs ++ [s.dicts.length]).set s.objs.length _).getD
            s.objs.length 0) = s.propsOf o
      rw [listGetD_set_self _ _ _ _ (by simp)]
      exact listGetD_concat_self _ _ _
    · show s.dicts.length ≤
          ((s.objs ++ [s.dicts.length]).set s.objs.length _).getD
            s.objs.length 0
      rw [listGetD_set_self _ _ _ _ (by simp)]
      simp
    · show ((s.objs ++ [s.dicts.length]).set s.objs.length _).getD
            s.objs.length 0 < _
      rw [listGetD_set_self _ _ _ _ (by simp)]
      simp
    · show ((s.objs ++ [s.dicts.length]).set s.objs.length _).getD o 0
          = s.objProps o
      rw [listGetD_set_ne _ _ _ _ _ (Ne.symm hco), hobjo]
    · intro b hb
      show ((((s.dicts ++ [[]]) ++ [s.propsOf o]) ++ [[]]) ++
          [s.propsOf o]).getD b [] = s.dictAt b
      rw [listGetD_append_left _ _ _ _ (by simp; omega),
        listGetD_append_left _ _ _ _ (by simp; omega),
        listGetD_append_left _ _ _ _ (by simp; omega),
        listGetD_append_left _ _ _ _ hb]
      rfl

theorem propsOf_setDictAt_ne (s : PState) (a : Nat) (d : Dict) (o : Nat)
    (h : a ≠ s.objProps o) :
    (s.setDictAt a d).propsOf o = s.dictAt (s.objProps o) := by
  show (s.setDictAt a d).dictAt ((s.setDictAt a d).objProps o) = _
  rw [PState.objProps_setDictAt, PState.dictAt_setDictAt_ne _ _ _ _ h]

/-- C7: `copy()` is exactly reconstruction via
`type(self)(source=self, copy=True)`; the copy's property mapping equals
the original's, and afterwards setting or deleting a property on the
copy leaves the original's property mapping unchanged (deep,
non-aliasing copy). -/
theorem C7_copy_reconstruct_nonaliasing (s : PState) (o : Nat)
    (p : String) (v : PValue)
    (ho : o < s.objs.length) (hwf : s.objProps o < s.dicts.length) :
    CoreProperties.copy s o
      = CoreProperties.init s none (some (.obj o)) ∧
    ((CoreProperties.copy s o).2).propsOf (CoreProperties.copy s o).1
      = s.propsOf o ∧
    (CoreProperties.set_property (CoreProperties.copy s o).2
        (CoreProperties.copy s o).1 p v).propsOf o = s.propsOf o ∧
    ((CoreProperties.del_property (CoreProperties.copy s o).2
        (CoreProperties.copy s o).1 p).2).propsOf o = s.propsOf o := by
  obtain ⟨h1, h2, h3, h4, h5⟩ := init_obj_spec s o ho hwf
  have ec : CoreProperties.copy s o
      = CoreProperties.init s none (some (.obj o)) := rfl
  rw [← ec] at h1 h2 h3 h4 h5
  have hne : (CoreProperties.copy s o).2.objProps (CoreProperties.copy s o).1
      ≠ (CoreProperties.copy s o).2.objProps o := by
    rw [h4]; omega
  have e3 : CoreProperties.set_property (CoreProperties.copy s o).2
        (CoreProperties.copy s o).1 p v
      = (CoreProperties.copy s o).2.setDictAt
          ((CoreProperties.copy s o).2.objProps (CoreProperties.copy s o).1)
          (dictInsert ((CoreProperties.copy s o).2.dictAt
            ((CoreProperties.copy s o).2.objProps
              (CoreProperties.copy s o).1)) p v) := rfl
  have e4 : (CoreProperties.del_property (CoreProperties.copy s o).2
        (CoreProperties.copy s o).1 p).2
      = (CoreProperties.copy s o).2.setDictAt
          ((CoreProperties.copy s o).2.objProps (CoreProperties.copy s o).1)
          (dictPop ((CoreProperties.copy s o).2.dictAt
            ((CoreProperties.copy s o).2.objProps
              (CoreProperties.copy s o).1)) p).2 := rfl
  refine ⟨ec, h1, ?_, ?_⟩
  · rw [e3, propsOf_setDictAt_ne _ _ _ _ hne, h4, h5 _ hwf]
    rfl
  · rw [e4, propsOf_setDictAt_ne _ _ _ _ hne, h4, h5 _ hwf]
    rfl

/-- Witness for C7 at a concrete store: a container holding `{'a': 1}`;
copying it, then setting `'b'` on the copy, leaves the original's
mapping `{'a': 1}`. -/
theorem C7_copy_reconstruct_nonaliasing_witness :
    (0 : Nat) < 1 ∧
    PState.objProps ⟨[[("a", .num "int" 1)]], [0]⟩ 0
      < (PState.dicts ⟨[[("a", .num "int" 1)]], [0]⟩).length ∧
    (CoreProperties.set_property
        (CoreProperties.copy ⟨[[("a", .num "int" 1)]], [0]⟩ 0).2
        (CoreProperties.copy ⟨[[("a", .num "int" 1)]], [0]⟩ 0).1 "b"
        (.num "int" 2)).propsOf 0 = [("a", .num "int" 1)] :=
  ⟨by decide, by decide,
    (C7_copy_reconstruct_nonaliasing ⟨[[("a", .num "int" 1)]], [0]⟩ 0 "b"
      (.num "int" 2) (by decide) (by decide)).2.2.1⟩

/-- An accessor probe behaves normally: it either returns a value or
raises `AttributeError` (the "source lacks this accessor" case). -/
def okOrNoAttr {α : Type} (x : Except PyErr α) : Prop :=
  x = .error .attributeError ∨ ∃ a, x = .ok a

theorem probeAttr_spec {α : Type} (x : Except PyErr α) (h : okOrNoAttr x) :
    ∃ y, probeAttr x = .ok y ∧ (x = .error .attributeError → y = none) := by
  rcases h with h | ⟨a, h⟩
  · exact ⟨none, by rw [h]; rfl, fun _ => rfl⟩
  · refine ⟨some a, by rw [h]; rfl, ?_⟩
    intro hc
    rw [h] at hc
    cases hc

theorem init_noaccessor_eq (s : PState) (props? : Option Dict) :
    CoreProperties.init s props? (some .noAccessor)
      = (s.objs.length, ⟨s.dicts ++ [[]], s.objs ++ [s.dicts.length]⟩) := by
  cases props? <;> rfl

/-- C8: constructing any of the composite kinds from a `source` whose
probed accessors may be missing (raise `AttributeError`) never fails:
the property container built from a source lacking `properties()` comes
out with an empty mapping; `NetCDFArray.__init__` succeeds with each
missing component absent (`mask` defaulting to `True`) and
close-after-access enabled; `PropertiesDataBounds.__init__` succeeds
with each constituent whose accessor is missing simply absent (empty
properties, no data, no bounds, no cell type, empty ancillaries). -/
theorem C8_construct_from_source_total (s : PState) (props? : Option Dict)
    (shape : Option (List Nat)) (filename ncvar : Option String)
    (varid : Option Int) (group : Option (List String))
    (dtype : Option String) (mask : Bool) (src : NASource)
    (properties : Dict) (data bounds : Option Nat)
    (cell_type : Option String) (ancillaries : Option (List (String × Nat)))
    (psrc : PDBSource)
    (h1 : okOrNoAttr src.shape) (h2 : okOrNoAttr src.filename)
    (h3 : okOrNoAttr src.ncvar) (h4 : okOrNoAttr src.varid)
    (h5 : okOrNoAttr src.group) (h6 : okOrNoAttr src.dtype)
    (h7 : okOrNoAttr src.mask)
    (g1 : okOrNoAttr psrc.properties) (g2 : okOrNoAttr psrc.data)
    (g3 : okOrNoAttr psrc.bounds) (g4 : okOrNoAttr psrc.cell_type)
    (g5 : okOrNoAttr psrc.ancillaries) :
    (((CoreProperties.init s props? (some .noAccessor)).2).propsOf
        (CoreProperties.init s props? (some .noAccessor)).1 = []) ∧
    (∃ obj, NetCDFArrayInit shape filename ncvar varid group dtype mask
        (some src) = .ok obj ∧
      (src.shape = .error .attributeError → obj.shape = none) ∧
      (src.filename = .error .attributeError → obj.filename = none) ∧
      (src.ncvar = .error .attributeError → obj.ncvar = none) ∧
      (src.varid = .error .attributeError → obj.varid = none) ∧
      (src.group = .error .attributeError → obj.group = none) ∧
      (src.dtype = .error .attributeError → obj.dtype = none) ∧
      (src.mask = .error .attributeError → obj.mask = true) ∧
      obj.closeAfter = true) ∧
    (∃ obj, PDBInit properties data bounds cell_type ancillaries
        (some psrc) = .ok obj ∧
      (psrc.properties = .error .attributeError → obj.props = []) ∧
      (psrc.data = .error .attributeError → obj.data = none) ∧
      (psrc.bounds = .error .attributeError → obj.bounds = none) ∧
      (psrc.cell_type = .error .attributeError → obj.cell_type = none) ∧
      (psrc.ancillaries = .error .attributeError → obj.ancillaries = [])) := by
  refine ⟨?_, ?_, ?_⟩
  · rw [init_noaccessor_eq]
    show PState.dictAt _ (PState.objProps _ s.objs.length) = []
    have h : PState.objProps ⟨s.dicts ++ [[]], s.objs ++ [s.dicts.length]⟩
        s.objs.length = s.dicts.length := listGetD_concat_self _ _ _
    rw [h]
    exact listGetD_concat_self _ _ _
  · obtain ⟨y1, hy1, hz1⟩ := probeAttr_spec _ h1
    obtain ⟨y2, hy2, hz2⟩ := probeAttr_spec _ h2
    obtain ⟨y3, hy3, hz3⟩ := probeAttr_spec _ h3
    obtain ⟨y4, hy4, hz4⟩ := probeAttr_spec _ h4
    obtain ⟨y5, hy5, hz5⟩ := probeAttr_spec _ h5
    obtain ⟨y6, hy6, hz6⟩ := probeAttr_spec _ h6
    obtain ⟨y7, hy7, hz7⟩ := probeAttr_spec _ h7
    refine ⟨⟨y2.getD none, y3.getD none, y4.getD none, y5.getD none,
      y1.getD none, y6.getD none, y7.getD true, true⟩, ?_, ?_, ?_, ?_, ?_,
      ?_, ?_, ?_, rfl⟩
    · simp only [NetCDFArrayInit, hy1, hy2, hy3, hy4, hy5, hy6, hy7]
      rfl
    · intro h; simp [hz1 h]
    · intro h; simp [hz2 h]
    · intro h; simp [hz3 h]
    · intro h; simp [hz4 h]
    · intro h; simp [hz5 h]
    · intro h; simp [hz6 h]
    · intro h; simp [hz7 h]
  · obtain ⟨y1, hy1, hz1⟩ := probeAttr_spec _ g1
    obtain ⟨y2, hy2, hz2⟩ := probeAttr_spec _ g2
    obtain ⟨y3, hy3, hz3⟩ := probeAttr_spec _ g3
    obtain ⟨y4, hy4, hz4⟩ := probeAttr_spec _ g4
    obtain ⟨y5, hy5, hz5⟩ := probeAttr_spec _ g5
    refine ⟨⟨y1.getD [], y2.getD none, y3.getD none, y4.getD none,
      y5.getD []⟩, ?_, ?_, ?_, ?_, ?_, ?_⟩
    · simp only [PDBInit, hy1, hy2, hy3, hy4, hy5]
      rfl
    · intro h; simp [hz1 h]
    · intro h; simp [hz2 h]
    · intro h; simp [hz3 h]
    · intro h; simp [hz4 h]
    · intro h; simp [hz5 h]

/-- A source none of whose `_get_component` probes succeed (it lacks the
method entirely): every probe raises `AttributeError`. -/
def naSourceNoAttrs : NASource :=
  ⟨.error .attributeError, .error .attributeError, .error .attributeError,
   .error .attributeError, .error .attributeError, .error .attributeError,
   .error .attributeError⟩

/-- A source lacking every accessor probed by
`PropertiesDataBounds.__init__`. -/
def pdbSourceNoAttrs : PDBSource :=
  ⟨.error .attributeError, .error .attributeError, .error .attributeError,
   .error .attributeError, .error .attributeError⟩

/-- Witness for C8: construction from concrete sources all of whose
probed accessors raise `AttributeError` succeeds with every constituent
absent. -/
theorem C8_construct_from_source_total_witness :
    okOrNoAttr naSourceNoAttrs.shape ∧
    okOrNoAttr pdbSourceNoAttrs.bounds ∧
    (((CoreProperties.init ⟨[], []⟩ (some [("a", .str "b")])
        (some .noAccessor)).2).propsOf
      (CoreProperties.init ⟨[], []⟩ (some [("a", .str "b")])
        (some .noAccessor)).1 = []) :=
  ⟨Or.inl rfl, Or.inl rfl,
    (C8_construct_from_source_total ⟨[], []⟩ (some [("a", .str "b")])
      none none none none none none true naSourceNoAttrs
      [] none none none none pdbSourceNoAttrs
      (Or.inl rfl) (Or.inl rfl) (Or.inl rfl) (Or.inl rfl) (Or.inl rfl)
      (Or.inl rfl) (Or.inl rfl) (Or.inl rfl) (Or.inl rfl) (Or.inl rfl)
      (Or.inl rfl) (Or.inl rfl)).1⟩

/-- The backing of the C1 counterexample: a root-group variable `v`,
close-after-access enabled (the default set by `__init__`). -/
def c1Backing : NetCDFArrayObj :=
  { filename := some "file.nc", ncvar := some "v", varid := none,
    group := none, shape := some [3], dtype := none, mask := true,
    closeAfter := true }

/-- The environment of the C1 counterexample: the dataset opens and
holds `v`, but reading the requested indices fails with `IndexError`. -/
def c1Env : NCEnv Nat :=
  { openResult := .ok (.node [⟨"v", 0, fun _ => .error .indexError⟩] [])
    postProcess := fun x => .ok x }

/-- C1 counterexample: with close-after-access enabled, a fetch whose
read itself fails propagates the error with the resource handle still
open (`openCount` ends at 1, not 0): the claim that no handle remains
open after every fetch — including when the read fails — is false of
the code, which calls `self.close(dataset)` only after a successful
read (line 223 follows lines 205–221 with no `try/finally`). -/
theorem C1_close_scoping_counterexample :
    (c1Backing.getitem c1Env ⟨0⟩).1 = .error .indexError ∧
    ((c1Backing.getitem c1Env ⟨0⟩).2).openCount = 1 ∧
    c1Backing.closeAfter = true :=
  ⟨rfl, rfl, rfl⟩

/-- C1 (amended): with close-after-access enabled (the default), the
handle accounting of a fetch is, exhaustively: a failed open acquires
no handle; after a successful open, the handle is closed before
returning exactly when the variable-resolution-and-read step of lines
205–221 completes without raising — including when the subsequent
character/string post-processing fails, and including the fall-through
where neither name nor positional id resolves, since the dataset is
closed at line 223 before the crash on the unassigned local — while an
exception during group traversal, named-variable lookup, or the read
itself propagates with the handle still open. -/
theorem C1_close_scoping_amended {α : Type} (a : NetCDFArrayObj)
    (env : NCEnv α) (st : NCState)
    (hclose : a.closeAfter = true) :
    ((a.getitem env st).2).openCount =
      (match env.openResult with
       | .error _ => st.openCount
       | .ok root =>
           match descendGroups root (a.group.getD []) with
           | .error _ => st.openCount + 1
           | .ok grp =>
               match resolveRead a grp with
               | .error _ => st.openCount + 1
               | .ok _ => st.openCount) := by
  rcases ho : env.openResult with e | root
  · unfold NetCDFArrayObj.getitem
    simp [ho]
  · rcases hg : descendGroups root (a.group.getD []) with e | grp
    · unfold NetCDFArrayObj.getitem
      simp [ho, hg]
    · rcases hr : resolveRead a grp with e | arr?
      · unfold NetCDFArrayObj.getitem
        simp [ho, hg, hr]
      · cases arr? <;>
          (unfold NetCDFArrayObj.getitem
           simp [ho, hg, hr, NetCDFArrayObj.closeDataset, hclose])

/-- The environment of the C1 witness: open succeeds, the variable
reads successfully. -/
def c1OkEnv : NCEnv Nat :=
  { openResult := .ok (.node [⟨"v", 0, fun _ => .ok 7⟩] [])
    postProcess := fun x => .ok x }

/-- Witness for C1 (amended) at a concrete backing and environment
whose open, group traversal and read all succeed: the handle count
returns to its initial value. -/
theorem C1_close_scoping_amended_witness :
    c1Backing.closeAfter = true ∧
    ((c1Backing.getitem c1OkEnv ⟨5⟩).2).openCount =
      (match c1OkEnv.openResult with
       | .error _ => (5 : Nat)
       | .ok root =>
           match descendGroups root (c1Backing.group.getD []) with
           | .error _ => 5 + 1
           | .ok grp =>
               match resolveRead c1Backing grp with
               | .error _ => 5 + 1
               | .ok _ => 5) :=
  ⟨rfl, C1_close_scoping_amended c1Backing c1OkEnv ⟨5⟩ rfl⟩

/-- The backing of the C5 failing input: no variable name, positional
id 7. -/
def c5Backing : NetCDFArrayObj :=
  { filename := some "file.nc", ncvar := none, varid := some 7,
    group := none, shape := some [2], dtype := none, mask := true,
    closeAfter := true }

/-- The dataset of the C5 failing input: two variables with positional
ids 1 and 2 — neither matches. -/
def c5Env : NCEnv Nat :=
  { openResult := .ok (.node
      [⟨"a", 1, fun _ => .ok 10⟩, ⟨"b", 2, fun _ => .ok 20⟩] [])
    postProcess := fun x => .ok x }

/-- C5 (code bug): at the failing input — no variable name set, and no
variable of the dataset carries the positional id 7 — the `for` loop of
lines 217–221 falls through without assigning the local `array`, the
dataset is closed, and the access to `array` at line 225 then raises
`UnboundLocalError`, not a variable-not-found error; `__getitem__`
contains no variable-not-found raise at all. -/
theorem C5_varid_unresolved_unboundlocal :
    c5Backing.getitem c5Env ⟨0⟩ = (.error .unboundLocalError, ⟨0⟩) := rfl

/-- C9: when the netCDF variable name is set, fetch resolves the
variable by that name only and never consults the positional id: the
entire outcome of `__getitem__` (result and handle accounting) is
unchanged under any replacement of the backing's `varid`. -/
theorem C9_ncvar_shadows_varid {α : Type} (a : NetCDFArrayObj)
    (env : NCEnv α) (st : NCState) (n : String) (v1 v2 : Option Int)
    (h : a.ncvar = some n) :
    ({a with varid := v1} : NetCDFArrayObj).getitem env st
      = ({a with varid := v2} : NetCDFArrayObj).getitem env st := by
  unfold NetCDFArrayObj.getitem
  simp only [resolveRead, NetCDFArrayObj.closeDataset, h]

/-- Witness for C9 at a concrete backing with both name and positional
id set: ids 3 and 99 give identical fetch outcomes. -/
theorem C9_ncvar_shadows_varid_witness :
    ({ filename := some "f.nc", ncvar := some "v", varid := some 3,
       group := none, shape := some [3], dtype := none, mask := true,
       closeAfter := true } : NetCDFArrayObj).ncvar = some "v" ∧
    ({ filename := some "f.nc", ncvar := some "v", varid := some 3,
       group := none, shape := some [3], dtype := none, mask := true,
       closeAfter := true } : NetCDFArrayObj).getitem c1OkEnv ⟨0⟩
      = ({ filename := some "f.nc", ncvar := some "v", varid := some 99,
           group := none, shape := some [3], dtype := none, mask := true,
           closeAfter := true } : NetCDFArrayObj).getitem c1OkEnv ⟨0⟩ :=
  ⟨rfl,
    C9_ncvar_shadows_varid
      { filename := some "f.nc", ncvar := some "v", varid := some 0,
        group := none, shape := some [3], dtype := none, mask := true,
        closeAfter := true } c1OkEnv ⟨0⟩ "v" (some 3) (some 99) rfl⟩

theorem raggedGo_get? {α : Type} (m : Nat) :
    ∀ (counts : List Nat) (phys : List α) (i : Nat), i < counts.length →
      (raggedGo m counts phys).get? i
        = some (raggedRowOf m (counts.getD i 0)
            (phys.drop (raggedOffset counts i))) := by
  intro counts
  induction counts with
  | nil => intro phys i h; cases h
  | cons c cs ih =>
      intro phys i h
      cases i with
      | zero => simp [raggedGo, raggedOffset]
      | succ i =>
          have h' : i < cs.length := Nat.lt_of_succ_lt_succ h
          show (raggedGo m cs (phys.drop c)).get? i = _
          rw [ih (phys.drop c) i h']
          have hd : (phys.drop c).drop (raggedOffset cs i)
              = phys.drop (raggedOffset (c :: cs) (i + 1)) := by
            rw [List.drop_drop]
            have : raggedOffset (c :: cs) (i + 1)
                = c + raggedOffset cs i := by
              simp [raggedOffset, List.take_succ_cons]
            rw [this, Nat.add_comm]
          rw [hd]
          rfl

/-- C2: spec-modelled ragged-by-count decompression correctness: for a
count array whose sum matches the physical row count, logical feature
`i` receives exactly the physical rows `[offset[i], offset[i]+count[i])`
(offset being the prefix sum of the counts) at the front of its logical
row with the remainder up to `max(count)` masked; a feature with count 0
yields an all-masked row; and for counts `[3,0,2]` over physical rows
`[r0..r4]` the result is row 0 = `[r0,r1,r2]`, row 1 = all-fill, row 2 =
`[r3,r4,fill]`. -/
theorem C2_ragged_decompression {α : Type} (counts : List Nat)
    (phys : List α) (h : counts.sum = phys.length) :
    (∀ i, i < counts.length →
      (raggedUncompress counts phys).get? i =
        some (((phys.drop (raggedOffset counts i)).take
            (counts.getD i 0)).map some ++
          List.replicate (raggedMaxCount counts - counts.getD i 0) none)) ∧
    (∀ i, i < counts.length →
      ((phys.drop (raggedOffset counts i)).take (counts.getD i 0)).length
        = counts.getD i 0) ∧
    (∀ i, i < counts.length → counts.getD i 0 = 0 →
      (raggedUncompress counts phys).get? i =
        some (List.replicate (raggedMaxCount counts) none)) ∧
    raggedUncompress [3, 0, 2] ([0, 1, 2, 3, 4] : List Nat) =
      [[some 0, some 1, some 2], [none, none, none],
       [some 3, some 4, none]] := by
  have main : ∀ i, i < counts.length →
      (raggedUncompress counts phys).get? i =
        some (((phys.drop (raggedOffset counts i)).take
            (counts.getD i 0)).map some ++
          List.replicate (raggedMaxCount counts - counts.getD i 0) none) :=
    fun i hi => raggedGo_get? (raggedMaxCount counts) counts phys i hi
  have hlen : ∀ i, i < counts.length →
      ((phys.drop (raggedOffset counts i)).take (counts.getD i 0)).length
        = counts.getD i 0 := by
    intro i hi
    have hoff : raggedOffset counts i + counts.getD i 0 ≤ counts.sum := by
      have h1 := List.sum_take_add_sum_drop counts i
      have h2 : counts.drop i = counts.getD i 0 :: counts.drop (i + 1) := by
        rw [List.getD_eq_getElem?_getD, List.getElem?_eq_getElem hi]
        exact (List.drop_eq_getElem_cons hi).symm ▸ rfl
      have h3 : (counts.drop i).sum
          = counts.getD i 0 + (counts.drop (i + 1)).sum := by
        rw [h2]; rfl
      unfold raggedOffset
      omega
    rw [List.length_take, List.length_drop]
    omega
  refine ⟨main, hlen, ?_, ?_⟩
  · intro i hi hz
    rw [main i hi, hz]
    simp
  · rfl

/-- Witness for C2 at the spec's concrete instance `[3,0,2]` over five
physical rows. -/
theorem C2_ragged_decompression_witness :
    ([3, 0, 2] : List Nat).sum = ([0, 1, 2, 3, 4] : List Nat).length ∧
    raggedUncompress [3, 0, 2] ([0, 1, 2, 3, 4] : List Nat) =
      [[some 0, some 1, some 2], [none, none, none],
       [some 3, some 4, none]] :=
  ⟨by decide, (C2_ragged_decompression [3, 0, 2] [0, 1, 2, 3, 4]
    (by decide)).2.2.2⟩

theorem strLtL_asymm : ∀ as bs, strLtL as bs = true → strLtL bs as = false := by
  intro as
  induction as with
  | nil =>
      intro bs h
      cases bs with
      | nil => simp [strLtL] at h
      | cons b bs => rfl
  | cons a as ih =>
      intro bs h
      cases bs with
      | nil => simp [strLtL] at h
      | cons b bs =>
          simp only [strLtL] at h ⊢
          by_cases hab : a.toNat < b.toNat
          · have hba : ¬ b.toNat < a.toNat := by omega
            rw [if_neg hba, if_pos hab]
          · rw [if_neg hab] at h
            by_cases hba : b.toNat < a.toNat
            · rw [if_pos hba] at h
              exact Bool.noConfusion h
            · rw [if_neg hba] at h
              rw [if_neg hba, if_neg hab]
              exact ih bs h

theorem strLtL_le_trans : ∀ (as bs cs : List Char),
    strLtL bs as = false → strLtL cs bs = false → strLtL cs as = false := by
  intro as
  induction as with
  | nil =>
      intro bs cs h1 h2
      cases cs with
      | nil => rfl
      | cons c cs => rfl
  | cons a as ih =>
      intro bs cs h1 h2
      cases bs with
      | nil => simp [strLtL] at h1
      | cons b bs =>
          cases cs with
          | nil => simp [strLtL] at h2
          | cons c cs =>
              simp only [strLtL] at h1 h2 ⊢
              by_cases hba : b.toNat < a.toNat
              · rw [if_pos hba] at h1
                exact Bool.noConfusion h1
              · rw [if_neg hba] at h1
                by_cases hcb : c.toNat < b.toNat
                · rw [if_pos hcb] at h2
                  exact Bool.noConfusion h2
                · rw [if_neg hcb] at h2
                  have hca : ¬ c.toNat < a.toNat := by omega
                  rw [if_neg hca]
                  by_cases hac : a.toNat < c.toNat
                  · rw [if_pos hac]
                  · rw [if_neg hac]
                    by_cases hab : a.toNat < b.toNat
                    · omega
                    · rw [if_neg hab] at h1
                      by_cases hbc : b.toNat < c.toNat
                      · omega
                      · rw [if_neg hbc] at h2
                        exact ih bs cs h1 h2

theorem strLe_trans (a b c : String) (h1 : strLe a b = true)
    (h2 : strLe b c = true) : strLe a c = true := by
  unfold strLe at h1 h2 ⊢
  simp only [Bool.not_eq_true'] at h1 h2 ⊢
  exact strLtL_le_trans a.data b.data c.data h1 h2

theorem strLe_total_of_not (a b : String) (h : strLe a b = false) :
    strLe b a = true := by
  unfold strLe at h ⊢
  simp only [Bool.not_eq_false'] at h
  simp only [Bool.not_eq_true']
  exact strLtL_asymm _ _ h

theorem insertByKey_perm (p : String × PValue) (l : List (String × PValue)) :
    List.Perm (insertByKey p l) (p :: l) := by
  induction l with
  | nil => exact List.Perm.refl _
  | cons q rest ih =>
      unfold insertByKey
      split_ifs with h
      · exact List.Perm.refl _
      · exact List.Perm.trans (List.Perm.cons q ih) (List.Perm.swap p q rest)

theorem insertByKey_sorted (p : String × PValue)
    (l : List (String × PValue))
    (h : List.Pairwise (fun x y => strLe x.1 y.1 = true) l) :
    List.Pairwise (fun x y => strLe x.1 y.1 = true) (insertByKey p l) := by
  induction l with
  | nil => exact List.pairwise_singleton _ _
  | cons q rest ih =>
      rcases h with _ | ⟨hq, hrest⟩
      unfold insertByKey
      split_ifs with hle
      · refine List.Pairwise.cons ?_ (List.Pairwise.cons hq hrest)
        intro r hr
        rcases List.mem_cons.mp hr with rfl | hr
        · exact hle
        · exact strLe_trans _ _ _ hle (hq r hr)
      · refine List.Pairwise.cons ?_ (ih hrest)
        intro r hr
        rcases List.mem_cons.mp
            ((insertByKey_perm p rest).mem_iff.mp hr) with rfl | hr
        · exact strLe_total_of_not _ _ (by simpa using hle)
        · exact hq r hr

theorem sortByKey_perm (d : Dict) : List.Perm (sortByKey d) d := by
  induction d with
  | nil => exact List.Perm.refl _
  | cons p rest ih =>
      exact List.Perm.trans (insertByKey_perm p (sortByKey rest))
        (List.Perm.cons p ih)

theorem sortByKey_sorted (d : Dict) :
    List.Pairwise (fun x y => strLe x.1 y.1 = true) (sortByKey d) := by
  induction d with
  | nil => exact List.Pairwise.nil
  | cons p rest ih => exact insertByKey_sorted p (sortByKey rest) ih

/-- C6 counterexample: with only `standard_name` set, `names()` returns
two entries — the bare value at the front and `standard_name=<value>`
in the sorted tail (lines 259–264 pop `cf_role` and `long_name` from
the copy but not `standard_name`) — so the claim that no single
property contributes more than one entry is false. -/
theorem C6_names_counterexample :
    MixinProperties.names [("standard_name", .str "air_temperature")]
        none []
      = ["air_temperature", "standard_name=air_temperature"] := rfl

/-- C6 (amended): `names()` lists, in order: the bare `standard_name`
value, `cf_role=<v>`, `long_name=<v>`, `ncvar%<name>` (each present only
when set), then any `extra` entries, then every property other than
`cf_role` and `long_name` — `standard_name` included, so a set
`standard_name` contributes a second entry — formatted `name=value` and
sorted by property name (the tail is a sorted permutation of the mapping
with `cf_role` and `long_name` removed). -/
theorem C6_names_amended (props : Dict) (ncv : Option String)
    (extra : List String) :
    (MixinProperties.names props ncv extra =
      ((dictLookup props "standard_name").map pvalueStr).toList ++
      ((dictLookup props "cf_role").map
        (fun v => "cf_role=" ++ pvalueStr v)).toList ++
      ((dictLookup props "long_name").map
        (fun v => "long_name=" ++ pvalueStr v)).toList ++
      (ncv.map (fun n => "ncvar%" ++ n)).toList ++
      extra ++
      (sortByKey (dictPop (dictPop props "cf_role").2 "long_name").2).map
        (fun kv => kv.1 ++ "=" ++ pvalueStr kv.2)) ∧
    List.Perm
      (sortByKey (dictPop (dictPop props "cf_role").2 "long_name").2)
      (dictPop (dictPop props "cf_role").2 "long_name").2 ∧
    List.Pairwise (fun x y => strLe x.1 y.1 = true)
      (sortByKey (dictPop (dictPop props "cf_role").2 "long_name").2) := by
  refine ⟨?_, sortByKey_perm _, sortByKey_sorted _⟩
  cases h1 : dictLookup props "standard_name" <;>
    cases h2 : dictLookup props "cf_role" <;>
      cases h3 : dictLookup props "long_name" <;>
        cases h4 : ncv <;>
          simp [MixinProperties.names, h1, h2, h3, h4]

/-- The spec's value comparison as a proposition: element-wise numeric
closeness `|x-y| ≤ atol + rtol*|y|`, exact equality for non-numeric
values, with the data types of numeric values ignored
(`Properties.equals` hard-codes `ignore_data_type=True`, line 182). -/
def ValuesClose (x y : PValue) (rtol atol : ℚ) : Prop :=
  match x, y with
  | .num _ qx, .num _ qy => |qx - qy| ≤ atol + rtol * |qy|
  | .str a, .str b => a = b
  | _, _ => False

theorem value_equals_true_iff (x y : PValue) (rtol atol : ℚ) :
    value_equals x y rtol atol true = true ↔ ValuesClose x y rtol atol := by
  cases x <;> cases y <;> simp [value_equals, ValuesClose]

theorem value_equals_refl (v : PValue) (rtol atol : ℚ)
    (h1 : 0 ≤ rtol) (h2 : 0 ≤ atol) :
    value_equals v v rtol atol true = true := by
  cases v with
  | num dt q =>
      simp only [value_equals, Bool.true_or, Bool.true_and]
      rw [decide_eq_true_iff]
      rw [sub_self, abs_zero]
      exact add_nonneg h2 (mul_nonneg h1 (abs_nonneg q))
  | str s => simp [value_equals]

theorem dictMem_iff_mem_keys (d : Dict) (k : String) :
    dictMem d k = true ↔ k ∈ dictKeys d := by
  induction d with
  | nil => simp [dictMem, dictLookup, dictKeys]
  | cons kv rest ih =>
      obtain ⟨k', v⟩ := kv
      show (dictLookup ((k', v) :: rest) k).isSome = true ↔ _
      unfold dictLookup
      by_cases h : k' = k
      · subst h
        simp [dictKeys]
      · rw [if_neg h]
        rw [show dictKeys ((k', v) :: rest) = k' :: dictKeys rest from rfl]
        constructor
        · intro hm
          exact List.mem_cons_of_mem _ (ih.mp hm)
        · intro hm
          rcases List.mem_cons.mp hm with rfl | hm
          · exact absurd rfl h
          · exact ih.mpr hm

theorem mem_of_dictLookup_eq_some (d : Dict) (k : String) (v : PValue)
    (h : dictLookup d k = some v) : (k, v) ∈ d := by
  induction d with
  | nil => cases h
  | cons kv rest ih =>
      obtain ⟨k', w⟩ := kv
      unfold dictLookup at h
      by_cases hk : k' = k
      · rw [if_pos hk] at h
        subst hk
        obtain rfl : w = v := Option.some_inj.mp h
        exact List.mem_cons_self _ _
      · rw [if_neg hk] at h
        exact List.mem_cons_of_mem _ (ih h)

theorem dictLookup_eq_some_of_mem (d : Dict) (k : String) (v : PValue)
    (hnd : (dictKeys d).Nodup) (hm : (k, v) ∈ d) :
    dictLookup d k = some v := by
  induction d with
  | nil => cases hm
  | cons kv rest ih =>
      obtain ⟨k', w⟩ := kv
      rw [show dictKeys ((k', w) :: rest) = k' :: dictKeys rest from rfl]
        at hnd
      rcases List.nodup_cons.mp hnd with ⟨hk', hnd'⟩
      unfold dictLookup
      rcases List.mem_cons.mp hm with heq | hm'
      · obtain ⟨rfl, rfl⟩ := Prod.mk.injEq .. ▸ heq
        · simp
      · have hk : k' ≠ k := by
          rintro rfl
          exact hk' (List.mem_map_of_mem Prod.fst hm')
        rw [if_neg hk]
        exact ih hnd' hm'

theorem dictKeys_pop_sublist (d : Dict) (k : String) :
    List.Sublist (dictKeys (dictPop d k).2) (dictKeys d) := by
  induction d with
  | nil => simp [dictPop, dictKeys]
  | cons kv rest ih =>
      obtain ⟨k', v⟩ := kv
      unfold dictPop
      by_cases h : k' = k
      · rw [if_pos h]
        exact List.sublist_cons_self _ _
      · rw [if_neg h]
        exact List.Sublist.cons₂ _ ih

theorem dictPopAll_keys_nodup (ks : List String) :
    ∀ d : Dict, (dictKeys d).Nodup → (dictKeys (dictPopAll d ks)).Nodup := by
  induction ks with
  | nil => intro d h; exact h
  | cons k ks ih =>
      intro d h
      show (dictKeys (dictPopAll (dictPop d k).2 ks)).Nodup
      exact ih _ (List.Nodup.sublist (dictKeys_pop_sublist d k) h)

theorem sameKeySet_iff (d1 d2 : Dict) :
    sameKeySet d1 d2 = true ↔ ∀ k, dictMem d1 k = dictMem d2 k := by
  unfold sameKeySet
  rw [Bool.and_eq_true]
  constructor
  · rintro ⟨h1, h2⟩ k
    rw [List.all_eq_true] at h1 h2
    by_cases hm : dictMem d1 k = true
    · rw [hm, h1 k ((dictMem_iff_mem_keys d1 k).mp hm)]
    · have hm1 : dictMem d1 k = false := by simpa using hm
      by_cases hm2 : dictMem d2 k = true
      · have := h2 k ((dictMem_iff_mem_keys d2 k).mp hm2)
        rw [this] at hm1
        cases hm1
      · have hm2' : dictMem d2 k = false := by simpa using hm2
        rw [hm1, hm2']
  · intro h
    refine ⟨List.all_eq_true.mpr ?_, List.all_eq_true.mpr ?_⟩
    · intro k hk
      rw [← h k]
      exact (dictMem_iff_mem_keys d1 k).mpr hk
    · intro k hk
      rw [h k]
      exact (dictMem_iff_mem_keys d2 k).mpr hk

theorem dict_equals_core_iff (sp op : Dict) (rtol atol : ℚ)
    (hnd : (dictKeys sp).Nodup) :
    (if sameKeySet sp op then
        sp.all fun kv =>
          match dictLookup op kv.1 with
          | some y => value_equals kv.2 y rtol atol true
          | none => false
      else false) = true
    ↔ ((∀ k, dictMem sp k = dictMem op k) ∧
       (∀ k x y, dictLookup sp k = some x → dictLookup op k = some y →
         ValuesClose x y rtol atol)) := by
  constructor
  · intro h
    by_cases hks : sameKeySet sp op = true
    · rw [if_pos hks] at h
      refine ⟨(sameKeySet_iff sp op).mp hks, ?_⟩
      intro k x y hx hy
      have hmem : (k, x) ∈ sp := mem_of_dictLookup_eq_some _ _ _ hx
      have hall := List.all_eq_true.mp h (k, x) hmem
      simp only [hy] at hall
      exact (value_equals_true_iff x y rtol atol).mp hall
    · rw [if_neg hks] at h
      cases h
  · rintro ⟨hkeys, hvals⟩
    rw [if_pos ((sameKeySet_iff sp op).mpr hkeys)]
    refine List.all_eq_true.mpr ?_
    rintro ⟨k, x⟩ hmem
    have hx : dictLookup sp k = some x :=
      dictLookup_eq_some_of_mem _ _ _ hnd hmem
    have hmemk : dictMem sp k = true := by simp [dictMem, hx]
    have hop : dictMem op k = true := by rw [← hkeys k]; exact hmemk
    obtain ⟨y, hy⟩ : ∃ y, dictLookup op k = some y := by
      unfold dictMem at hop
      exact Option.isSome_iff_exists.mp hop
    simp only [hy]
    exact (value_equals_true_iff x y rtol atol).mpr (hvals k x y hx hy)

/-- C4: two property containers are `equals()` iff, after removing every
ignored name (plus `_FillValue`/`missing_value` when `ignore_fill_value`)
from both sides, they have the same property key set and each shared
key's values are numerically close (`|x-y| ≤ atol + rtol*|y|`) or, for
non-numeric values, exactly equal — the data types of numeric property
values being always ignored (`ValuesClose` carries no data-type
condition); in particular `{'a': 1.0}` and `{'a': 1.0 + 1e-10}` are
equal under the default tolerances, and two containers differing only in
property `a` are equal under `ignore_properties=['a']`. -/
theorem C4_equals_tolerant_comparison (d1 d2 : Dict) (rtol atol : ℚ)
    (ignore_fill_value : Bool) (ignore_properties ig : List String)
    (v1 v2 : PValue) (d : Dict)
    (hig : ig = if ignore_fill_value then
        ignore_properties ++ ["_FillValue", "missing_value"]
      else ignore_properties)
    (hnd1 : (dictKeys d1).Nodup) (hndd : (dictKeys d).Nodup) :
    (MixinProperties.equals d1 d2 rtol atol ignore_fill_value
        ignore_properties = true ↔
      ((∀ k, dictMem (dictPopAll d1 ig) k = dictMem (dictPopAll d2 ig) k) ∧
       (∀ k x y, dictLookup (dictPopAll d1 ig) k = some x →
         dictLookup (dictPopAll d2 ig) k = some y →
         ValuesClose x y rtol atol))) ∧
    MixinProperties.equals [("a", .num "float64" 1)]
      [("a", .num "float64" (1 + 1 / 10 ^ 10))] RTOL_default ATOL_default
      false [] = true ∧
    MixinProperties.equals (("a", v1) :: d) (("a", v2) :: d) RTOL_default
      ATOL_default false ["a"] = true := by
  refine ⟨?_, ?_, ?_⟩
  · subst hig
    exact dict_equals_core_iff _ _ rtol atol
      (dictPopAll_keys_nodup _ d1 hnd1)
  · show (if sameKeySet (dictPopAll [("a", .num "float64" 1)] [])
        (dictPopAll [("a", .num "float64" (1 + 1 / 10 ^ 10))] []) then
          (dictPopAll [("a", .num "float64" 1)] []).all fun kv =>
            match dictLookup
                (dictPopAll [("a", .num "float64" (1 + 1 / 10 ^ 10))] [])
                kv.1 with
            | some y => value_equals kv.2 y RTOL_default ATOL_default true
            | none => false
        else false) = true
    rw [if_pos]
    · refine List.all_eq_true.mpr ?_
      rintro ⟨k, x⟩ hmem
      have hmem' := List.mem_singleton.mp hmem
      rw [Prod.mk.injEq] at hmem'
      obtain ⟨rfl, rfl⟩ := hmem'
      show (match dictLookup [("a", .num "float64" (1 + 1 / 10 ^ 10))] "a"
          with
        | some y => value_equals (.num "float64" 1) y RTOL_default
            ATOL_default true
        | none => false) = true
      rw [show dictLookup [("a", .num "float64" (1 + 1 / 10 ^ 10))] "a"
          = some (.num "float64" (1 + 1 / 10 ^ 10)) from rfl]
      show value_equals (.num "float64" 1)
          (.num "float64" (1 + 1 / 10 ^ 10)) RTOL_default ATOL_default
          true = true
      simp only [value_equals, Bool.true_or, Bool.true_and,
        decide_eq_true_iff]
      rw [show (1 : Rat) - (1 + 1 / 10 ^ 10) = -(1 / 10 ^ 10) by ring,
        abs_neg]
      rw [ATOL_default, RTOL_default]
      rw [abs_of_nonneg (by norm_num : (0 : Rat) <= 1 / 10 ^ 10),
        abs_of_nonneg (by norm_num : (0 : Rat) <= 1 + 1 / 10 ^ 10)]
      norm_num
    · refine (sameKeySet_iff _ _).mpr ?_
      intro k
      show dictMem [("a", PValue.num "float64" 1)] k
          = dictMem [("a", PValue.num "float64" (1 + 1 / 10 ^ 10))] k
      by_cases h : "a" = k <;> simp [dictMem, dictLookup, h]
  · have e1 : dictPopAll (("a", v1) :: d) ["a"] = d := by
      show (dictPop (("a", v1) :: d) "a").2 = d
      simp [dictPop]
    have e2 : dictPopAll (("a", v2) :: d) ["a"] = d := by
      show (dictPop (("a", v2) :: d) "a").2 = d
      simp [dictPop]
    show (if sameKeySet (dictPopAll (("a", v1) :: d) ["a"])
        (dictPopAll (("a", v2) :: d) ["a"]) then
          (dictPopAll (("a", v1) :: d) ["a"]).all fun kv =>
            match dictLookup (dictPopAll (("a", v2) :: d) ["a"]) kv.1 with
            | some y => value_equals kv.2 y RTOL_default ATOL_default true
            | none => false
        else false) = true
    rw [e1, e2, if_pos ((sameKeySet_iff d d).mpr (fun k => rfl))]
    refine List.all_eq_true.mpr ?_
    rintro ⟨k, x⟩ hmem
    have hx : dictLookup d k = some x :=
      dictLookup_eq_some_of_mem _ _ _ hndd hmem
    simp only [hx]
    exact value_equals_refl x RTOL_default ATOL_default
      (by rw [RTOL_default]; norm_num) (by rw [ATOL_default]; norm_num)

/-- Witness for C4 at concrete containers: `{'a': 1.0}` and
`{'a': 1.0 + 1e-10}` compare equal under the default tolerances. -/
theorem C4_equals_tolerant_comparison_witness :
    ([] : List String) = (if false then
        [] ++ ["_FillValue", "missing_value"] else ([] : List String)) ∧
    (dictKeys [("a", PValue.num "float64" 1)]).Nodup ∧
    (dictKeys [("b", PValue.str "x")]).Nodup ∧
    MixinProperties.equals [("a", .num "float64" 1)]
      [("a", .num "float64" (1 + 1 / 10 ^ 10))] RTOL_default ATOL_default
      false [] = true :=
  ⟨rfl, by decide, by decide,
    (C4_equals_tolerant_comparison [("a", .num "float64" 1)]
      [("a", .num "float64" (1 + 1 / 10 ^ 10))] RTOL_default ATOL_default
      false [] [] (.str "u") (.str "w") [("b", PValue.str "x")] rfl
      (by decide) (by decide)).2.1⟩
